import Mathlib

/-!
Verification of the anomaly-detection core of the smart-tourist-safety
repository (src/ai-service/anomaly.py and src/ai-service/api.py).

The Python code is shallowly embedded: GPS coordinates, timestamps and
distances become real numbers (timestamps are seconds since a fixed epoch,
matching the `total_seconds()` arithmetic of the source); pandas dataframes
become lists of `Ping` records; the fitted scikit-learn objects, which live
outside this repository, are modelled as opaque function records.  The
f-string `details` field of an anomaly dict is presentation-only text and is
not carried in the embedding.
-/

namespace TouristSafety

noncomputable instance (priority := 10) classicalPropDec (p : Prop) : Decidable p :=
  Classical.propDecidable p

/-- One row of the tourist dataframe: `tourist_id`, `lat`, `lon`, `timestamp`
(seconds; the source stores a string that `pd.to_datetime` parses). -/
structure Ping where
  tourist_id : Int
  lat : ℝ
  lon : ℝ
  timestamp : ℝ

/-- The `anomaly_type` tags emitted by anomaly.py. -/
inductive AnomalyType where
  | stopped_too_long
  | route_deviation
  | ml_pattern_anomaly
deriving DecidableEq

/-- One anomaly dict appended by the detectors (anomaly.py lines 77-85,
118-126, 219-227), without the presentation-only `details` string. -/
structure AnomalyRecord where
  tourist_id : Int
  timestamp : ℝ
  lat : ℝ
  lon : ℝ
  anomaly_type : AnomalyType
  confidence : ℝ

/-- math.radians: degrees to radians. -/
noncomputable def radians (x : ℝ) : ℝ := x * Real.pi / 180

/-- math.atan2 with the usual quadrant convention. -/
noncomputable def atan2 (y x : ℝ) : ℝ :=
  if 0 < x then Real.arctan (y / x)
  else if x < 0 ∧ 0 ≤ y then Real.arctan (y / x) + Real.pi
  else if x < 0 then Real.arctan (y / x) - Real.pi
  else if 0 < y then Real.pi / 2
  else if y < 0 then -(Real.pi / 2)
  else 0

/-- The quantity `a` of the haversine formula (anomaly.py lines 42-43). -/
noncomputable def hav_a (lat1 lon1 lat2 lon2 : ℝ) : ℝ :=
  Real.sin (radians (lat2 - lat1) / 2) ^ 2 +
    Real.cos (radians lat1) * Real.cos (radians lat2) *
      Real.sin (radians (lon2 - lon1) / 2) ^ 2

/-- haversine_distance (anomaly.py lines 33-46): `R * c` with
`R = 6371000` and `c = 2 * atan2(sqrt a, sqrt (1 - a))`. -/
noncomputable def haversine_distance (lat1 lon1 lat2 lon2 : ℝ) : ℝ :=
  6371000 *
    (2 * atan2 (Real.sqrt (hav_a lat1 lon1 lat2 lon2))
      (Real.sqrt (1 - hav_a lat1 lon1 lat2 lon2)))

/-- The fixed planned route of TouristAnomalyDetector (anomaly.py 21-27). -/
noncomputable def planned_route : List (ℝ × ℝ) :=
  [(12.9716, 77.5946), (12.9726, 77.5956), (12.9736, 77.5966),
   (12.9746, 77.5976), (12.9756, 77.5986)]

/-- Comparison key of `sort_values('timestamp')`. -/
def tsLE (a b : Ping) : Prop := a.timestamp ≤ b.timestamp

noncomputable instance : DecidableRel tsLE := fun _ _ => Classical.propDecidable _

instance : IsTotal Ping tsLE := ⟨fun a b => le_total a.timestamp b.timestamp⟩

instance : IsTrans Ping tsLE := ⟨fun _ _ _ h h' => le_trans h h'⟩

/-- df[df['tourist_id'] == tourist_id]. -/
def entity_rows (df : List Ping) (tid : Int) : List Ping :=
  df.filter (fun r => r.tourist_id == tid)

/-- tourist_data.sort_values('timestamp') on the rows of one entity. -/
noncomputable def sorted_entity (df : List Ping) (tid : Int) : List Ping :=
  (entity_rows df tid).insertionSort tsLE

/-- The anomaly dict built at anomaly.py lines 77-85 for a qualifying pair. -/
noncomputable def stop_record (θ : ℝ) (tid : Int) (prev cur : Ping) : AnomalyRecord :=
  { tourist_id := tid
    timestamp := cur.timestamp
    lat := cur.lat
    lon := cur.lon
    anomaly_type := .stopped_too_long
    confidence := min ((cur.timestamp - prev.timestamp) / 60 / θ) 2 }

/-- The loop of detect_stop_anomaly (anomaly.py lines 62-85): walk
consecutive pairs of the sorted rows, appending an anomaly when the pair is
closer than 10 m and at least `θ` minutes apart. -/
noncomputable def stopScan (θ : ℝ) (tid : Int) : List Ping → List AnomalyRecord
  | prev :: cur :: rest =>
      (if haversine_distance prev.lat prev.lon cur.lat cur.lon < 10 ∧
          (cur.timestamp - prev.timestamp) / 60 ≥ θ then
        [stop_record θ tid prev cur]
      else []) ++ stopScan θ tid (cur :: rest)
  | _ => []

/-- detect_stop_anomaly (anomaly.py lines 48-87); `θ` is the configured
`stop_threshold_minutes`. -/
noncomputable def detect_stop_anomaly (θ : ℝ) (df : List Ping) (tid : Int) :
    List AnomalyRecord :=
  let tourist_data := sorted_entity df tid
  if tourist_data.length < 2 then [] else stopScan θ tid tourist_data

theorem arctan_nonneg_of_nonneg {x : ℝ} (h : 0 ≤ x) : 0 ≤ Real.arctan x := by
  have := Real.arctan_strictMono.monotone h
  rwa [Real.arctan_zero] at this

theorem atan2_nonneg {y x : ℝ} (hy : 0 ≤ y) : 0 ≤ atan2 y x := by
  unfold atan2
  split_ifs with h1 h2 h3 h4 h5
  · exact arctan_nonneg_of_nonneg (div_nonneg hy (le_of_lt h1))
  · have := Real.neg_pi_div_two_lt_arctan (y / x)
    have hπ := Real.pi_pos
    linarith
  · exact absurd ⟨h3, hy⟩ h2
  · have hπ := Real.pi_pos
    linarith
  · linarith
  · exact le_refl 0

theorem haversine_nonneg (lat1 lon1 lat2 lon2 : ℝ) :
    0 ≤ haversine_distance lat1 lon1 lat2 lon2 := by
  unfold haversine_distance
  have h := atan2_nonneg (x := Real.sqrt (1 - hav_a lat1 lon1 lat2 lon2))
    (Real.sqrt_nonneg (hav_a lat1 lon1 lat2 lon2))
  positivity

theorem sin_sq_swap (x y : ℝ) :
    Real.sin (radians (x - y) / 2) ^ 2 = Real.sin (radians (y - x) / 2) ^ 2 := by
  rw [show radians (x - y) / 2 = -(radians (y - x) / 2) by unfold radians; ring,
    Real.sin_neg]
  ring

theorem hav_a_symm (lat1 lon1 lat2 lon2 : ℝ) :
    hav_a lat1 lon1 lat2 lon2 = hav_a lat2 lon2 lat1 lon1 := by
  unfold hav_a
  rw [sin_sq_swap lat2 lat1, sin_sq_swap lon2 lon1]
  ring

theorem haversine_symm (lat1 lon1 lat2 lon2 : ℝ) :
    haversine_distance lat1 lon1 lat2 lon2 = haversine_distance lat2 lon2 lat1 lon1 := by
  unfold haversine_distance
  rw [hav_a_symm]

theorem haversine_of_hav_a_eq_zero {lat1 lon1 lat2 lon2 : ℝ}
    (h : hav_a lat1 lon1 lat2 lon2 = 0) :
    haversine_distance lat1 lon1 lat2 lon2 = 0 := by
  unfold haversine_distance
  rw [h, Real.sqrt_zero, show (1 : ℝ) - 0 = 1 by norm_num, Real.sqrt_one]
  have : atan2 0 1 = 0 := by
    unfold atan2
    rw [if_pos one_pos]
    simp [Real.arctan_zero]
  rw [this]
  ring

theorem hav_a_self (lat lon : ℝ) : hav_a lat lon lat lon = 0 := by
  unfold hav_a radians
  simp

theorem haversine_self (lat lon : ℝ) : haversine_distance lat lon lat lon = 0 :=
  haversine_of_hav_a_eq_zero (hav_a_self lat lon)

theorem hav_a_pole (lon1 lon2 : ℝ) : hav_a 90 lon1 90 lon2 = 0 := by
  unfold hav_a radians
  rw [show (90 : ℝ) * Real.pi / 180 = Real.pi / 2 by ring, Real.cos_pi_div_two]
  simp

theorem haversine_pole (lon1 lon2 : ℝ) : haversine_distance 90 lon1 90 lon2 = 0 :=
  haversine_of_hav_a_eq_zero (hav_a_pole lon1 lon2)

/-- Specification reading of the stop rule: one record per consecutive pair
of the (already ordered) entity rows whose distance is below 10 m and whose
gap is at least `θ` minutes, placed at the later ping. -/
noncomputable def stop_pair_records (θ : ℝ) (tid : Int) (l : List Ping) :
    List AnomalyRecord :=
  (l.zip l.tail).filterMap fun pc =>
    if haversine_distance pc.1.lat pc.1.lon pc.2.lat pc.2.lon < 10 ∧
        (pc.2.timestamp - pc.1.timestamp) / 60 ≥ θ then
      some (stop_record θ tid pc.1 pc.2)
    else none

theorem stopScan_eq_pairs (θ : ℝ) (tid : Int) :
    ∀ l : List Ping, stopScan θ tid l = stop_pair_records θ tid l := by
  intro l
  induction l with
  | nil => rfl
  | cons p t ih =>
    cases t with
    | nil => rfl
    | cons c rest =>
      rw [stopScan, ih]
      unfold stop_pair_records
      simp only [List.tail_cons, List.zip_cons_cons, List.filterMap_cons]
      split_ifs with h
      · simp
      · simp

/-- The accumulator loop of detect_route_deviation (anomaly.py lines 96-114)
for the fixed five-waypoint route, in loop order.  With four segments the
`float('inf')` start disappears after the first comparison (`min(inf, x) = x`),
leaving the nested minimum of the eight visited endpoint distances. -/
noncomputable def min_route_distance (lat lon : ℝ) : ℝ :=
  let d := fun p : ℝ × ℝ => haversine_distance lat lon p.1 p.2
  min (min (min (min (min (min (min
    (d (12.9716, 77.5946)) (d (12.9726, 77.5956))) (d (12.9726, 77.5956)))
    (d (12.9736, 77.5966))) (d (12.9736, 77.5966))) (d (12.9746, 77.5976)))
    (d (12.9746, 77.5976))) (d (12.9756, 77.5986))

/-- Specification reading of the same minimum: the least haversine distance
from the ping to a waypoint of the reference path. -/
noncomputable def spec_min_waypoint_distance (lat lon : ℝ) : ℝ :=
  let d := fun p : ℝ × ℝ => haversine_distance lat lon p.1 p.2
  min (d (12.9716, 77.5946)) (min (d (12.9726, 77.5956))
    (min (d (12.9736, 77.5966)) (min (d (12.9746, 77.5976)) (d (12.9756, 77.5986)))))

theorem min_dup (a b : ℝ) : min (min a b) b = min a b := by
  rw [min_assoc, min_self]

theorem min_route_distance_eq_spec (lat lon : ℝ) :
    min_route_distance lat lon = spec_min_waypoint_distance lat lon := by
  unfold min_route_distance spec_min_waypoint_distance
  dsimp only
  rw [min_dup, min_dup, min_dup]
  simp [min_assoc]

/-- The anomaly dict built at anomaly.py lines 118-126. -/
noncomputable def deviation_record (θ : ℝ) (tid : Int) (row : Ping) : AnomalyRecord :=
  { tourist_id := tid
    timestamp := row.timestamp
    lat := row.lat
    lon := row.lon
    anomaly_type := .route_deviation
    confidence := min (min_route_distance row.lat row.lon / θ) 3 }

/-- detect_route_deviation (anomaly.py lines 89-128); `θ` is the configured
`deviation_threshold_meters`.  The rows of one entity are visited in
dataframe order (no sort), and a record is appended exactly when the minimum
endpoint distance exceeds the threshold. -/
noncomputable def detect_route_deviation (θ : ℝ) (df : List Ping) (tid : Int) :
    List AnomalyRecord :=
  (entity_rows df tid).filterMap fun row =>
    if min_route_distance row.lat row.lon > θ then
      some (deviation_record θ tid row)
    else none

theorem min_route_distance_mem (lat lon : ℝ) :
    ∃ w ∈ planned_route,
      min_route_distance lat lon = haversine_distance lat lon w.1 w.2 := by
  rw [min_route_distance_eq_spec]
  unfold spec_min_waypoint_distance planned_route
  set d0 := haversine_distance lat lon 12.9716 77.5946 with hd0
  set d1 := haversine_distance lat lon 12.9726 77.5956 with hd1
  set d2 := haversine_distance lat lon 12.9736 77.5966 with hd2
  set d3 := haversine_distance lat lon 12.9746 77.5976 with hd3
  set d4 := haversine_distance lat lon 12.9756 77.5986 with hd4
  rcases min_choice d0 (min d1 (min d2 (min d3 d4))) with h | h
  · exact ⟨(12.9716, 77.5946), by simp, by simpa using h⟩
  · rw [h]
    rcases min_choice d1 (min d2 (min d3 d4)) with h1 | h1
    · exact ⟨(12.9726, 77.5956), by simp, by simpa using h1⟩
    · rw [h1]
      rcases min_choice d2 (min d3 d4) with h2 | h2
      · exact ⟨(12.9736, 77.5966), by simp, by simpa using h2⟩
      · rw [h2]
        rcases min_choice d3 d4 with h3 | h3
        · exact ⟨(12.9746, 77.5976), by simp, by simpa using h3⟩
        · exact ⟨(12.9756, 77.5986), by simp, by simpa using h3⟩

theorem min_route_distance_le (lat lon : ℝ) :
    ∀ w ∈ planned_route,
      min_route_distance lat lon ≤ haversine_distance lat lon w.1 w.2 := by
  intro w hw
  rw [min_route_distance_eq_spec]
  unfold planned_route at hw
  simp only [List.mem_cons, List.not_mem_nil, or_false] at hw
  unfold spec_min_waypoint_distance
  rcases hw with rfl | rfl | rfl | rfl | rfl <;> simp [min_le_iff]

theorem min_route_distance_nonneg (lat lon : ℝ) :
    0 ≤ min_route_distance lat lon := by
  rw [min_route_distance_eq_spec]
  unfold spec_min_waypoint_distance
  simp [le_min_iff, haversine_nonneg]

theorem min_route_distance_waypoint (w : ℝ × ℝ) (hw : w ∈ planned_route) :
    min_route_distance w.1 w.2 = 0 := by
  have h1 := min_route_distance_le w.1 w.2 w hw
  rw [haversine_self] at h1
  exact le_antisymm h1 (min_route_distance_nonneg w.1 w.2)

/-- check_single_point (anomaly.py lines 257-288): deviation on the lone new
ping unconditionally; stop detection over history plus the new ping when a
non-empty history is supplied, keeping only stop anomalies timestamped
within 60 seconds of the query. -/
noncomputable def check_single_point (θstop θdev : ℝ) (tid : Int)
    (lat lon ts : ℝ) (historical_data : Option (List Ping)) :
    List AnomalyRecord :=
  let current_point : List Ping := [⟨tid, lat, lon, ts⟩]
  let deviation_anomalies := detect_route_deviation θdev current_point tid
  let stop_part :=
    match historical_data with
    | none => []
    | some h =>
        if 0 < h.length then
          (detect_stop_anomaly θstop (h ++ current_point) tid).filter
            (fun a => |ts - a.timestamp| < 60)
        else []
  deviation_anomalies ++ stop_part

/-- df['tourist_id'].unique(): first occurrences, in order of appearance. -/
def uniqueIds : List Int → List Int
  | [] => []
  | a :: rest => a :: uniqueIds (rest.filter (fun b => !(b == a)))
termination_by l => l.length
decreasing_by
  simp only [List.length_cons]
  exact Nat.lt_succ_of_le (List.length_filter_le _ _)

/-- Modelled from the spec: the fitted scaler and unsupervised outlier
ensemble (scikit-learn StandardScaler and IsolationForest) are external to
this repository; only their call surface used by detect_ml_anomalies is
kept, as opaque functions. -/
structure MLModel where
  transform : List (List ℝ) → List (List ℝ)
  predict : List (List ℝ) → List Int
  decision_function : List (List ℝ) → List ℝ

/-- np.mean of the route latitudes (anomaly.py line 153). -/
noncomputable def route_center_lat : ℝ := (planned_route.map Prod.fst).sum / 5

/-- np.mean of the route longitudes (anomaly.py line 154). -/
noncomputable def route_center_lon : ℝ := (planned_route.map Prod.snd).sum / 5

/-- The feature vector of one consecutive pair (anomaly.py lines 143-168). -/
noncomputable def pair_features (prev cur : Ping) : List ℝ :=
  let distance := haversine_distance prev.lat prev.lon cur.lat cur.lon
  let time_diff := (cur.timestamp - prev.timestamp) / 60
  let speed := distance / max time_diff 0.1
  let distance_from_center :=
    haversine_distance cur.lat cur.lon route_center_lat route_center_lon
  [distance, time_diff, speed, distance_from_center, cur.lat, cur.lon]

/-- The inner loop of prepare_ml_features over one entity's sorted rows. -/
noncomputable def featureScan : List Ping → List (List ℝ)
  | prev :: cur :: rest => pair_features prev cur :: featureScan (cur :: rest)
  | _ => []

/-- prepare_ml_features (anomaly.py lines 130-170). -/
noncomputable def prepare_ml_features (df : List Ping) : List (List ℝ) :=
  (uniqueIds (df.map (·.tourist_id))).flatMap
    (fun tid => featureScan (sorted_entity df tid))

/-- The emission loop of detect_ml_anomalies for one entity (anomaly.py
lines 216-228): row `i ≥ 1` of the sorted entity data consumes global
feature index `start + (i - 1)`; a record is emitted when that index is in
range and predicted `-1`. -/
noncomputable def ml_entity_records (preds : List Int) (scores : List ℝ)
    (tid : Int) (l : List Ping) (start : Nat) : List AnomalyRecord :=
  l.tail.enum.filterMap fun je =>
    if start + je.1 < preds.length ∧ preds.getD (start + je.1) 0 = -1 then
      some { tourist_id := tid
             timestamp := je.2.timestamp
             lat := je.2.lat
             lon := je.2.lon
             anomaly_type := .ml_pattern_anomaly
             confidence := |scores.getD (start + je.1) 0| }
    else none

/-- The outer loop of detect_ml_anomalies over the unique entities, threading
the running feature index. -/
noncomputable def mlScan (preds : List Int) (scores : List ℝ) (df : List Ping) :
    List Int → Nat → List AnomalyRecord
  | [], _ => []
  | tid :: rest, start =>
      let l := sorted_entity df tid
      ml_entity_records preds scores tid l start ++
        mlScan preds scores df rest (start + l.tail.length)

/-- detect_ml_anomalies (anomaly.py lines 196-230): empty result when no
model has been trained or no feature row is extractable. -/
noncomputable def detect_ml_anomalies (model : Option MLModel) (df : List Ping) :
    List AnomalyRecord :=
  match model with
  | none => []
  | some m =>
      let features := prepare_ml_features df
      if features.length = 0 then []
      else
        let features_scaled := m.transform features
        let predictions := m.predict features_scaled
        let anomaly_scores := m.decision_function features_scaled
        mlScan predictions anomaly_scores df (uniqueIds (df.map (·.tourist_id))) 0

/-- The rule-based part of analyze_tourist_data (anomaly.py lines 236-244):
stops then deviations, entity by entity in order of first appearance. -/
noncomputable def rule_based_anomalies (θstop θdev : ℝ) (df : List Ping) :
    List AnomalyRecord :=
  (uniqueIds (df.map (·.tourist_id))).flatMap
    (fun tid => detect_stop_anomaly θstop df tid ++ detect_route_deviation θdev df tid)

/-- analyze_tourist_data (anomaly.py lines 232-255).  `ml_run` models the
outcome of the try block (train_ml_model followed by detect_ml_anomalies,
whose scikit-learn internals are external to the repository): `Except.ok`
is its returned record list, `Except.error` a raised exception, caught and
logged by the except clause. -/
noncomputable def analyze_tourist_data (ml_run : Except String (List AnomalyRecord))
    (θstop θdev : ℝ) (df : List Ping) (use_ml : Bool) : List AnomalyRecord :=
  let all_anomalies := rule_based_anomalies θstop θdev df
  if use_ml then
    match ml_run with
    | .ok ml_anomalies => all_anomalies ++ ml_anomalies
    | .error _ => all_anomalies
  else all_anomalies

/-- One entry of the per-tourist history kept by the API layer
(api.py lines 124-131); `anomaly_type` is `none` for the literal
string 'normal'. -/
structure HistoryEntry where
  tourist_id : Int
  lat : ℝ
  lon : ℝ
  timestamp : ℝ
  is_anomaly : Bool
  anomaly_type : Option AnomalyType

/-- The history update of check_anomaly (api.py lines 120-135): append the
new point, then keep only the last 100 entries when over capacity. -/
def update_tourist_history (history : List HistoryEntry) (e : HistoryEntry) :
    List HistoryEntry :=
  let h := history ++ [e]
  if 100 < h.length then h.drop (h.length - 100) else h

/-- C9: haversine_distance is zero on the diagonal and symmetric in its two
coordinate pairs. -/
theorem haversine_zero_diag_and_symm :
    (∀ lat lon : ℝ, haversine_distance lat lon lat lon = 0) ∧
      (∀ lat1 lon1 lat2 lon2 : ℝ,
        haversine_distance lat1 lon1 lat2 lon2 =
          haversine_distance lat2 lon2 lat1 lon1) :=
  ⟨haversine_self, haversine_symm⟩

theorem foldl_update_history_eq_drop :
    ∀ es : List HistoryEntry,
      List.foldl update_tourist_history [] es = es.drop (es.length - 100) := by
  intro es
  induction es using List.reverseRecOn with
  | nil => rfl
  | append_singleton es e ih =>
      rw [List.foldl_append, List.foldl_cons, List.foldl_nil, ih]
      unfold update_tourist_history
      dsimp only
      by_cases hk : es.length < 100
      · rw [show es.length - 100 = 0 by omega, List.drop_zero]
        rw [if_neg (by simp only [List.length_append, List.length_singleton]; omega)]
        rw [show (es ++ [e]).length - 100 = 0 by
            simp only [List.length_append, List.length_singleton]; omega,
          List.drop_zero]
      · have h100 : 100 ≤ es.length := le_of_not_lt hk
        rw [if_pos (by
          simp only [List.length_append, List.length_drop, List.length_singleton]
          omega)]
        rw [show (es.drop (es.length - 100) ++ [e]).length - 100 = 1 by
            simp only [List.length_append, List.length_drop, List.length_singleton]
            omega]
        rw [show (es ++ [e]).length - 100 = (es.length - 100) + 1 by
            simp only [List.length_append, List.length_singleton]; omega]
        rw [List.drop_append_of_le_length (by
            simp only [List.length_drop]; omega),
          List.drop_append_of_le_length (by omega), List.drop_drop]

/-- C7: starting from an empty buffer, any sequence of insertions leaves at
most 100 entries, and the buffer is exactly the suffix of the insertion
sequence past its first `length - 100` elements: the most recent 100, in
insertion order (FIFO eviction of the oldest). -/
theorem history_capacity_and_fifo (es : List HistoryEntry) :
    (List.foldl update_tourist_history [] es).length ≤ 100 ∧
      List.foldl update_tourist_history [] es = es.drop (es.length - 100) := by
  have h := foldl_update_history_eq_drop es
  refine ⟨?_, h⟩
  rw [h, List.length_drop]
  omega

/-- C6: with use_ml enabled, analyze_tourist_data always returns the
rule-based stop and deviation records as a prefix, and when the try block
raises (modelled by Except.error) the result is exactly the rule-based
records: the exception never propagates. -/
theorem analyze_never_propagates_ml_failure (θstop θdev : ℝ) (df : List Ping)
    (ml_run : Except String (List AnomalyRecord)) (e : String) :
    (∃ extra, analyze_tourist_data ml_run θstop θdev df true =
        rule_based_anomalies θstop θdev df ++ extra) ∧
      analyze_tourist_data (Except.error e) θstop θdev df true =
        rule_based_anomalies θstop θdev df := by
  constructor
  · cases ml_run with
    | ok l => exact ⟨l, rfl⟩
    | error err => exact ⟨[], by simp [analyze_tourist_data]⟩
  · rfl

/-- C5: detect_ml_anomalies with no trained model, or with no extractable
feature row, returns the empty list (and, being a total function of the
model state, raises nothing). -/
theorem detect_ml_untrained_or_featureless (model : Option MLModel) (df : List Ping) :
    (model = none → detect_ml_anomalies model df = []) ∧
      (prepare_ml_features df = [] → detect_ml_anomalies model df = []) := by
  constructor
  · intro h
    subst h
    rfl
  · intro h
    cases model with
    | none => rfl
    | some m =>
        unfold detect_ml_anomalies
        rw [h]
        simp

/-- A stand-in fitted model used to instantiate theorems at concrete inputs. -/
def placeholder_model : MLModel :=
  { transform := id, predict := fun _ => [], decision_function := fun _ => [] }

theorem detect_ml_untrained_or_featureless_witness :
    detect_ml_anomalies none [⟨1, 0, 0, 0⟩] = [] ∧
      detect_ml_anomalies (some placeholder_model) [] = [] :=
  ⟨(detect_ml_untrained_or_featureless none [⟨1, 0, 0, 0⟩]).1 rfl,
   (detect_ml_untrained_or_featureless (some placeholder_model) []).2
     (by simp [prepare_ml_features, uniqueIds])⟩

theorem mem_route_deviation_type {θ : ℝ} {df : List Ping} {tid : Int}
    {r : AnomalyRecord} (h : r ∈ detect_route_deviation θ df tid) :
    r.anomaly_type = .route_deviation := by
  unfold detect_route_deviation at h
  rw [List.mem_filterMap] at h
  obtain ⟨row, _, hr⟩ := h
  split_ifs at hr with hc
  rw [Option.some_inj] at hr
  rw [← hr]
  rfl

theorem mem_stop_anomaly_type {θ : ℝ} {df : List Ping} {tid : Int}
    {r : AnomalyRecord} (h : r ∈ detect_stop_anomaly θ df tid) :
    r.anomaly_type = .stopped_too_long := by
  unfold detect_stop_anomaly at h
  dsimp only at h
  split_ifs at h
  · exact absurd h (by simp)
  · rw [stopScan_eq_pairs] at h
    unfold stop_pair_records at h
    rw [List.mem_filterMap] at h
    obtain ⟨pc, _, hr⟩ := h
    split_ifs at hr with hc
    rw [Option.some_inj] at hr
    rw [← hr]
    rfl

/-- C8: the deviation records returned by check_single_point are exactly the
result of the deviation detector on the lone new ping, for every history
argument (the right-hand side does not mention the history at all). -/
theorem single_point_deviation_independent (θs θd : ℝ) (tid : Int)
    (lat lon ts : ℝ) (hist : Option (List Ping)) :
    (check_single_point θs θd tid lat lon ts hist).filter
        (fun r => decide (r.anomaly_type = AnomalyType.route_deviation)) =
      detect_route_deviation θd [⟨tid, lat, lon, ts⟩] tid := by
  have h1 : (detect_route_deviation θd [⟨tid, lat, lon, ts⟩] tid).filter
      (fun r => decide (r.anomaly_type = AnomalyType.route_deviation)) =
      detect_route_deviation θd [⟨tid, lat, lon, ts⟩] tid := by
    apply List.filter_eq_self.mpr
    intro r hr
    rw [decide_eq_true_eq]
    exact mem_route_deviation_type hr
  have h2 : ∀ part : List AnomalyRecord,
      (∀ r ∈ part, r.anomaly_type = AnomalyType.stopped_too_long) →
      part.filter (fun r => decide (r.anomaly_type = AnomalyType.route_deviation)) = [] := by
    intro part hp
    apply List.filter_eq_nil_iff.mpr
    intro r hr
    rw [Bool.not_eq_true, decide_eq_false_iff_not]
    rw [hp r hr]
    intro hcontra
    exact AnomalyType.noConfusion hcontra
  cases hist with
  | none =>
      unfold check_single_point
      dsimp only
      rw [List.filter_append, h1]
      simp
  | some h =>
      unfold check_single_point
      dsimp only
      rw [List.filter_append, h1]
      split_ifs with hl
      · rw [h2 _ (fun r hr => mem_stop_anomaly_type (List.mem_of_mem_filter hr))]
        simp
      · simp

theorem stop_pair_records_short {θ : ℝ} {tid : Int} {l : List Ping}
    (h : l.length < 2) : stop_pair_records θ tid l = [] := by
  match l, h with
  | [], _ => rfl
  | [x], _ => rfl
  | a :: b :: rest, h => simp only [List.length_cons] at h; omega

/-- C1: on entity rows already sorted by timestamp, detect_stop_anomaly is
exactly one record per consecutive pair closer than 10 m with gap of at
least `θ` minutes, placed at the later ping with confidence
min(gap/θ, 2); fewer than 2 rows yield no anomalies. -/
theorem stop_detector_pairwise_spec (θ : ℝ) (df : List Ping) (tid : Int)
    (hs : List.Sorted tsLE (entity_rows df tid)) :
    detect_stop_anomaly θ df tid = stop_pair_records θ tid (entity_rows df tid) ∧
      ((entity_rows df tid).length < 2 → detect_stop_anomaly θ df tid = []) := by
  have hid : sorted_entity df tid = entity_rows df tid := by
    unfold sorted_entity
    exact hs.insertionSort_eq
  constructor
  · unfold detect_stop_anomaly
    dsimp only
    rw [hid]
    by_cases h2 : (entity_rows df tid).length < 2
    · rw [if_pos h2, stop_pair_records_short h2]
    · rw [if_neg h2, stopScan_eq_pairs]
  · intro h2
    unfold detect_stop_anomaly
    dsimp only
    rw [hid, if_pos h2]

theorem stop_detector_pairwise_spec_witness :
    (detect_stop_anomaly 5 [⟨1, 90, 0, 0⟩, ⟨1, 90, 0, 360⟩] 1 =
        stop_pair_records 5 1 (entity_rows [⟨1, 90, 0, 0⟩, ⟨1, 90, 0, 360⟩] 1) ∧
      ((entity_rows [⟨1, 90, 0, 0⟩, ⟨1, 90, 0, 360⟩] 1).length < 2 →
        detect_stop_anomaly 5 [⟨1, 90, 0, 0⟩, ⟨1, 90, 0, 360⟩] 1 = [])) ∧
      detect_stop_anomaly 5 [⟨2, 90, 0, 0⟩] 2 = [] := by
  constructor
  · exact stop_detector_pairwise_spec 5 [⟨1, 90, 0, 0⟩, ⟨1, 90, 0, 360⟩] 1
      (by norm_num [entity_rows, List.sorted_cons, tsLE])
  · exact (stop_detector_pairwise_spec 5 [⟨2, 90, 0, 0⟩] 2
      (by norm_num [entity_rows, List.sorted_cons])).2
      (by norm_num [entity_rows])

/-- A ping placed exactly at a reference-path waypoint is never flagged as a
route deviation (its minimum endpoint distance is 0). -/
theorem deviation_none_at_waypoint {θ : ℝ} (hθ : 0 ≤ θ) {w : ℝ × ℝ}
    (hw : w ∈ planned_route) (tid : Int) (ts : ℝ) :
    detect_route_deviation θ [⟨tid, w.1, w.2, ts⟩] tid = [] := by
  unfold detect_route_deviation entity_rows
  simp only [List.filter_cons, List.filter_nil, beq_self_eq_true, if_true,
    List.filterMap_cons, List.filterMap_nil]
  rw [if_neg]
  have h0 := min_route_distance_waypoint w hw
  intro hgt
  rw [h0] at hgt
  exact absurd hgt (not_lt.mpr hθ)

/-- C2: detect_route_deviation flags a row exactly when the least haversine
distance to the route waypoints strictly exceeds the threshold, with
confidence min(distance/θ, 3); the loop accumulator really is that least
distance, and a ping at a waypoint has distance 0 and is never flagged. -/
theorem deviation_detector_spec (θ : ℝ) (df : List Ping) (tid : Int)
    (hθ : 0 ≤ θ) :
    (detect_route_deviation θ df tid =
        (entity_rows df tid).filterMap fun row =>
          if spec_min_waypoint_distance row.lat row.lon > θ then
            some { tourist_id := tid, timestamp := row.timestamp, lat := row.lat,
                   lon := row.lon, anomaly_type := .route_deviation,
                   confidence := min (spec_min_waypoint_distance row.lat row.lon / θ) 3 }
          else none) ∧
      (∀ lat lon : ℝ,
        (∃ w ∈ planned_route,
          min_route_distance lat lon = haversine_distance lat lon w.1 w.2) ∧
        ∀ w ∈ planned_route,
          min_route_distance lat lon ≤ haversine_distance lat lon w.1 w.2) ∧
      (∀ w ∈ planned_route, min_route_distance w.1 w.2 = 0) ∧
      (∀ w ∈ planned_route, ∀ ts : ℝ,
        detect_route_deviation θ [⟨tid, w.1, w.2, ts⟩] tid = []) := by
  refine ⟨?_, fun lat lon => ⟨min_route_distance_mem lat lon,
      min_route_distance_le lat lon⟩,
    fun w hw => min_route_distance_waypoint w hw,
    fun w hw ts => deviation_none_at_waypoint hθ hw tid ts⟩
  unfold detect_route_deviation
  have hfn : (fun row : Ping =>
      if min_route_distance row.lat row.lon > θ then
        some (deviation_record θ tid row)
      else none) =
      (fun row : Ping =>
        if spec_min_waypoint_distance row.lat row.lon > θ then
          some { tourist_id := tid, timestamp := row.timestamp, lat := row.lat,
                 lon := row.lon, anomaly_type := AnomalyType.route_deviation,
                 confidence := min (spec_min_waypoint_distance row.lat row.lon / θ) 3 }
        else none) := by
    funext row
    unfold deviation_record
    rw [min_route_distance_eq_spec]
  rw [hfn]

theorem deviation_detector_spec_witness :
    min_route_distance 12.9716 77.5946 = 0 ∧
      detect_route_deviation 200 [⟨7, 12.9716, 77.5946, 0⟩] 7 = [] := by
  have h := deviation_detector_spec 200 [] 7 (by norm_num)
  have hw : ((12.9716 : ℝ), (77.5946 : ℝ)) ∈ planned_route := by
    unfold planned_route
    exact List.mem_cons_self _ _
  have h1 := h.2.2.1 ((12.9716 : ℝ), (77.5946 : ℝ)) hw
  have h2 := h.2.2.2 ((12.9716 : ℝ), (77.5946 : ℝ)) hw 0
  exact ⟨h1, h2⟩

/-- C4: check_single_point returns no stop record when the history argument
is absent or empty, and every stop record it returns is timestamped strictly
within 60 seconds of the queried ping. -/
theorem single_point_stop_constraints (θs θd : ℝ) (tid : Int)
    (lat lon ts : ℝ) (hist : Option (List Ping)) :
    ((hist = none ∨ hist = some []) →
        (check_single_point θs θd tid lat lon ts hist).filter
          (fun r => decide (r.anomaly_type = AnomalyType.stopped_too_long)) = []) ∧
      (∀ r ∈ check_single_point θs θd tid lat lon ts hist,
        r.anomaly_type = AnomalyType.stopped_too_long → |ts - r.timestamp| < 60) := by
  have hdevpart : ∀ l : List AnomalyRecord,
      (∀ r ∈ l, r.anomaly_type = AnomalyType.route_deviation) →
      l.filter (fun r => decide (r.anomaly_type = AnomalyType.stopped_too_long)) = [] := by
    intro l hl
    apply List.filter_eq_nil_iff.mpr
    intro r hr
    rw [Bool.not_eq_true, decide_eq_false_iff_not, hl r hr]
    intro hco
    exact AnomalyType.noConfusion hco
  constructor
  · rintro (rfl | rfl)
    · unfold check_single_point
      dsimp only
      rw [List.append_nil]
      exact hdevpart _ (fun r hr => mem_route_deviation_type hr)
    · unfold check_single_point
      dsimp only
      rw [if_neg (by simp), List.append_nil]
      exact hdevpart _ (fun r hr => mem_route_deviation_type hr)
  · intro r hr htype
    cases hist with
    | none =>
        unfold check_single_point at hr
        dsimp only at hr
        rw [List.append_nil] at hr
        rw [mem_route_deviation_type hr] at htype
        exact absurd htype (by intro hco; exact AnomalyType.noConfusion hco)
    | some hdata =>
        unfold check_single_point at hr
        dsimp only at hr
        rw [List.mem_append] at hr
        rcases hr with hr | hr
        · rw [mem_route_deviation_type hr] at htype
          exact absurd htype (by intro hco; exact AnomalyType.noConfusion hco)
        · split_ifs at hr with hl
          · exact of_decide_eq_true (List.mem_filter.mp hr).2
          · exact absurd hr (by simp)

theorem single_point_stop_constraints_witness :
    ((check_single_point 5 200 3 12.9716 77.5946 0 none).filter
        (fun r => decide (r.anomaly_type = AnomalyType.stopped_too_long)) = []) ∧
      |(600 : ℝ) - (stop_record 5 3 ⟨3, 12.9716, 77.5946, 0⟩
        ⟨3, 12.9716, 77.5946, 600⟩).timestamp| < 60 := by
  have hw : ((12.9716 : ℝ), (77.5946 : ℝ)) ∈ planned_route := by
    unfold planned_route
    exact List.mem_cons_self _ _
  have hstop : detect_stop_anomaly 5
      [⟨3, 12.9716, 77.5946, 0⟩, ⟨3, 12.9716, 77.5946, 600⟩] 3 =
      [stop_record 5 3 ⟨3, 12.9716, 77.5946, 0⟩ ⟨3, 12.9716, 77.5946, 600⟩] := by
    unfold detect_stop_anomaly
    dsimp only
    rw [show sorted_entity [⟨3, 12.9716, 77.5946, 0⟩, ⟨3, 12.9716, 77.5946, 600⟩] 3 =
        [⟨3, 12.9716, 77.5946, 0⟩, ⟨3, 12.9716, 77.5946, 600⟩] from by
      unfold sorted_entity
      rw [show entity_rows [⟨3, 12.9716, 77.5946, 0⟩, ⟨3, 12.9716, 77.5946, 600⟩] 3 =
          [⟨3, 12.9716, 77.5946, 0⟩, ⟨3, 12.9716, 77.5946, 600⟩] from by
        simp [entity_rows]]
      exact (by norm_num [List.sorted_cons, tsLE] :
        List.Sorted tsLE [⟨3, 12.9716, 77.5946, 0⟩,
          ⟨3, 12.9716, 77.5946, 600⟩]).insertionSort_eq]
    rw [if_neg (by simp)]
    simp only [stopScan]
    dsimp only
    rw [if_pos ⟨by rw [haversine_self]; norm_num, by norm_num⟩]
    simp
  have hsingle : check_single_point 5 200 3 12.9716 77.5946 600
      (some [⟨3, 12.9716, 77.5946, 0⟩]) =
      [stop_record 5 3 ⟨3, 12.9716, 77.5946, 0⟩ ⟨3, 12.9716, 77.5946, 600⟩] := by
    unfold check_single_point
    dsimp only
    have hdev := deviation_none_at_waypoint (θ := 200) (by norm_num) hw 3 600
    dsimp only at hdev
    rw [hdev, if_pos (by simp)]
    rw [show ([⟨3, 12.9716, 77.5946, 0⟩] : List Ping) ++
        [⟨3, 12.9716, 77.5946, 600⟩] =
        [⟨3, 12.9716, 77.5946, 0⟩, ⟨3, 12.9716, 77.5946, 600⟩] from rfl]
    rw [hstop]
    rw [List.filter_cons, if_pos (by
      rw [decide_eq_true_eq]
      unfold stop_record
      dsimp only
      norm_num)]
    simp
  constructor
  · exact (single_point_stop_constraints 5 200 3 12.9716 77.5946 0 none).1 (Or.inl rfl)
  · exact (single_point_stop_constraints 5 200 3 12.9716 77.5946 600
      (some [⟨3, 12.9716, 77.5946, 0⟩])).2
      (stop_record 5 3 ⟨3, 12.9716, 77.5946, 0⟩ ⟨3, 12.9716, 77.5946, 600⟩)
      (by rw [hsingle]; exact List.mem_cons_self _ _) rfl

theorem stopScan_eq_nil {θ : ℝ} {tid : Int} {l : List Ping}
    (h : ∀ pc ∈ l.zip l.tail, (pc.2.timestamp - pc.1.timestamp) / 60 < θ) :
    stopScan θ tid l = [] := by
  rw [stopScan_eq_pairs]
  unfold stop_pair_records
  apply List.filterMap_eq_nil_iff.mpr
  intro pc hpc
  rw [if_neg]
  rintro ⟨_, hge⟩
  exact absurd hge (not_le.mpr (h pc hpc))

theorem detect_stop_eq_nil_of_gaps {θ : ℝ} {df : List Ping} {tid : Int}
    (h : ∀ pc ∈ (sorted_entity df tid).zip (sorted_entity df tid).tail,
      (pc.2.timestamp - pc.1.timestamp) / 60 < θ) :
    detect_stop_anomaly θ df tid = [] := by
  unfold detect_stop_anomaly
  dsimp only
  split_ifs
  · rfl
  · exact stopScan_eq_nil h

/-- C3 (amended): the stop detector keys on the gap of each consecutive pair,
not on cumulative dwell; whenever every consecutive gap of the sorted entity
rows is below the threshold, no stop anomaly is emitted at all. -/
theorem stop_detector_ignores_cumulative_dwell (θ : ℝ) (df : List Ping)
    (tid : Int)
    (h : ∀ pc ∈ (sorted_entity df tid).zip (sorted_entity df tid).tail,
      (pc.2.timestamp - pc.1.timestamp) / 60 < θ) :
    detect_stop_anomaly θ df tid = [] :=
  detect_stop_eq_nil_of_gaps h

/-- The scenario of the claim: 3 moving pings, then 8 pings at one fixed
location (pairwise distance 0 < 5 m), all spaced exactly 1 minute apart. -/
noncomputable def dwell_scenario : List Ping :=
  [⟨1, 12.9716, 77.5946, 0⟩, ⟨1, 12.9726, 77.5956, 60⟩,
   ⟨1, 12.9736, 77.5966, 120⟩, ⟨1, 12.9746, 77.5976, 180⟩,
   ⟨1, 12.9746, 77.5976, 240⟩, ⟨1, 12.9746, 77.5976, 300⟩,
   ⟨1, 12.9746, 77.5976, 360⟩, ⟨1, 12.9746, 77.5976, 420⟩,
   ⟨1, 12.9746, 77.5976, 480⟩, ⟨1, 12.9746, 77.5976, 540⟩,
   ⟨1, 12.9746, 77.5976, 600⟩] 

/-- C3 counterexample: on the claimed scenario (threshold 5, gaps of 1
minute), the detector emits no stop anomaly whatsoever — cumulative dwell
past 5 minutes never triggers it, contradicting the claim that anomalies
begin at the pair crossing the 5-minute dwell. -/
theorem stop_detector_dwell_scenario_empty :
    detect_stop_anomaly 5 dwell_scenario 1 = [] := by
  have hrows : entity_rows dwell_scenario 1 = dwell_scenario := by
    simp [entity_rows, dwell_scenario]
  have hsorted : List.Sorted tsLE dwell_scenario := by
    norm_num [dwell_scenario, List.sorted_cons, tsLE]
  have hse : sorted_entity dwell_scenario 1 = dwell_scenario := by
    unfold sorted_entity
    rw [hrows]
    exact hsorted.insertionSort_eq
  apply detect_stop_eq_nil_of_gaps
  rw [hse]
  intro pc hpc
  unfold dwell_scenario at hpc
  simp only [List.tail_cons, List.zip_cons_cons, List.zip_nil_right,
    List.mem_cons, List.not_mem_nil, or_false] at hpc
  rcases hpc with rfl | rfl | rfl | rfl | rfl | rfl | rfl | rfl | rfl | rfl <;>
    norm_num

theorem stop_detector_ignores_cumulative_dwell_witness :
    detect_stop_anomaly 5 [⟨9, 90, 0, 0⟩, ⟨9, 90, 0, 60⟩] 9 = [] := by
  apply stop_detector_ignores_cumulative_dwell
  have hse : sorted_entity [⟨9, 90, 0, 0⟩, ⟨9, 90, 0, 60⟩] 9 =
      [⟨9, 90, 0, 0⟩, ⟨9, 90, 0, 60⟩] := by
    unfold sorted_entity
    rw [show entity_rows [⟨9, 90, 0, 0⟩, ⟨9, 90, 0, 60⟩] 9 =
        [⟨9, 90, 0, 0⟩, ⟨9, 90, 0, 60⟩] from by simp [entity_rows]]
    exact (by norm_num [List.sorted_cons, tsLE] :
      List.Sorted tsLE [⟨9, 90, 0, 0⟩, ⟨9, 90, 0, 60⟩]).insertionSort_eq
  rw [hse]
  intro pc hpc
  simp only [List.tail_cons, List.zip_cons_cons, List.zip_nil_right,
    List.mem_cons, List.not_mem_nil, or_false] at hpc
  rcases hpc with rfl
  norm_num

theorem eq_of_perm_sorted_nodup :
    ∀ {l₁ l₂ : List Ping}, l₁.Perm l₂ → List.Sorted tsLE l₁ →
      List.Sorted tsLE l₂ → (l₁.map Ping.timestamp).Nodup → l₁ = l₂ := by
  intro l₁
  induction l₁ with
  | nil =>
      intro l₂ hp _ _ _
      exact hp.symm.eq_nil.symm
  | cons a t ih =>
      intro l₂ hp hs₁ hs₂ hnd
      cases l₂ with
      | nil =>
          have := hp.length_eq
          simp at this
      | cons b t₂ =>
          have hab : a = b := by
            by_contra hne
            have ha2 : a ∈ b :: t₂ := hp.subset (List.mem_cons_self a t)
            have hb1 : b ∈ a :: t := hp.symm.subset (List.mem_cons_self b t₂)
            have hat2 : a ∈ t₂ := by
              rcases List.mem_cons.mp ha2 with h | h
              · exact absurd h hne
              · exact h
            have hbt : b ∈ t := by
              rcases List.mem_cons.mp hb1 with h | h
              · exact absurd h.symm hne
              · exact h
            have h1 : a.timestamp ≤ b.timestamp := (List.sorted_cons.mp hs₁).1 b hbt
            have h2 : b.timestamp ≤ a.timestamp := (List.sorted_cons.mp hs₂).1 a hat2
            have hts : a.timestamp = b.timestamp := le_antisymm h1 h2
            have hmem : a.timestamp ∈ t.map Ping.timestamp := by
              rw [hts]
              exact List.mem_map_of_mem Ping.timestamp hbt
            exact (List.nodup_cons.mp (by simpa using hnd)).1 hmem
          subst hab
          have ht : t = t₂ := ih hp.cons_inv (List.sorted_cons.mp hs₁).2
            (List.sorted_cons.mp hs₂).2
            (List.nodup_cons.mp (by simpa using hnd)).2
          rw [ht]

/-- C10 (amended): detect_stop_anomaly is invariant under permutations of
the input as long as the entity's timestamps are pairwise distinct (it sorts
internally, so the caller need not pre-sort); with tied timestamps the
sorted order, hence the output, can depend on the input order. -/
theorem stop_detector_perm_invariant (θ : ℝ) (df df' : List Ping) (tid : Int)
    (hp : df.Perm df')
    (hnd : ((entity_rows df tid).map Ping.timestamp).Nodup) :
    detect_stop_anomaly θ df tid = detect_stop_anomaly θ df' tid := by
  have hpe : (entity_rows df tid).Perm (entity_rows df' tid) := hp.filter _
  have hnds : ((sorted_entity df tid).map Ping.timestamp).Nodup :=
    ((List.perm_insertionSort tsLE (entity_rows df tid)).map
      Ping.timestamp).nodup_iff.mpr hnd
  have hse : sorted_entity df tid = sorted_entity df' tid :=
    eq_of_perm_sorted_nodup
      ((List.perm_insertionSort tsLE _).trans
        (hpe.trans (List.perm_insertionSort tsLE _).symm))
      (List.sorted_insertionSort tsLE _)
      (List.sorted_insertionSort tsLE _)
      hnds
  unfold detect_stop_anomaly
  rw [hse]

theorem stop_detector_perm_invariant_witness :
    detect_stop_anomaly 5 [⟨4, 90, 0, 0⟩, ⟨4, 90, 0, 60⟩] 4 =
      detect_stop_anomaly 5 [⟨4, 90, 0, 60⟩, ⟨4, 90, 0, 0⟩] 4 := by
  apply stop_detector_perm_invariant
  · exact List.Perm.swap _ _ _
  · norm_num [entity_rows, List.nodup_cons]

/-- C10 counterexample: two permutations of the same three pings of one
entity, two of which share a timestamp, for which detect_stop_anomaly
returns different record lists (the emitted record carries the longitude of
whichever tied ping the stable sort left in second position). -/
theorem stop_detector_perm_counterexample :
    detect_stop_anomaly 5 [⟨1, 90, 0, 0⟩, ⟨1, 90, 0, 600⟩, ⟨1, 90, 50, 600⟩] 1 ≠
      detect_stop_anomaly 5 [⟨1, 90, 0, 0⟩, ⟨1, 90, 50, 600⟩, ⟨1, 90, 0, 600⟩] 1 := by
  have e1 : detect_stop_anomaly 5
      [⟨1, 90, 0, 0⟩, ⟨1, 90, 0, 600⟩, ⟨1, 90, 50, 600⟩] 1 =
      [stop_record 5 1 ⟨1, 90, 0, 0⟩ ⟨1, 90, 0, 600⟩] := by
    unfold detect_stop_anomaly
    dsimp only
    rw [show sorted_entity [⟨1, 90, 0, 0⟩, ⟨1, 90, 0, 600⟩, ⟨1, 90, 50, 600⟩] 1 =
        [⟨1, 90, 0, 0⟩, ⟨1, 90, 0, 600⟩, ⟨1, 90, 50, 600⟩] from by
      unfold sorted_entity
      rw [show entity_rows [⟨1, 90, 0, 0⟩, ⟨1, 90, 0, 600⟩, ⟨1, 90, 50, 600⟩] 1 =
          [⟨1, 90, 0, 0⟩, ⟨1, 90, 0, 600⟩, ⟨1, 90, 50, 600⟩] from by
        simp [entity_rows]]
      exact (by norm_num [List.sorted_cons, tsLE] : List.Sorted tsLE
        [⟨1, 90, 0, 0⟩, ⟨1, 90, 0, 600⟩, ⟨1, 90, 50, 600⟩]).insertionSort_eq]
    rw [if_neg (by simp)]
    simp only [stopScan]
    dsimp only
    rw [if_pos ⟨by rw [haversine_pole]; norm_num, by norm_num⟩,
      if_neg (fun hc => absurd hc.2 (by norm_num))]
    simp
  have e2 : detect_stop_anomaly 5
      [⟨1, 90, 0, 0⟩, ⟨1, 90, 50, 600⟩, ⟨1, 90, 0, 600⟩] 1 =
      [stop_record 5 1 ⟨1, 90, 0, 0⟩ ⟨1, 90, 50, 600⟩] := by
    unfold detect_stop_anomaly
    dsimp only
    rw [show sorted_entity [⟨1, 90, 0, 0⟩, ⟨1, 90, 50, 600⟩, ⟨1, 90, 0, 600⟩] 1 =
        [⟨1, 90, 0, 0⟩, ⟨1, 90, 50, 600⟩, ⟨1, 90, 0, 600⟩] from by
      unfold sorted_entity
      rw [show entity_rows [⟨1, 90, 0, 0⟩, ⟨1, 90, 50, 600⟩, ⟨1, 90, 0, 600⟩] 1 =
          [⟨1, 90, 0, 0⟩, ⟨1, 90, 50, 600⟩, ⟨1, 90, 0, 600⟩] from by
        simp [entity_rows]]
      exact (by norm_num [List.sorted_cons, tsLE] : List.Sorted tsLE
        [⟨1, 90, 0, 0⟩, ⟨1, 90, 50, 600⟩, ⟨1, 90, 0, 600⟩]).insertionSort_eq]
    rw [if_neg (by simp)]
    simp only [stopScan]
    dsimp only
    rw [if_pos ⟨by rw [haversine_pole]; norm_num, by norm_num⟩,
      if_neg (fun hc => absurd hc.2 (by norm_num))]
    simp
  rw [e1, e2]
  intro hcontra
  rw [List.cons.injEq] at hcontra
  have hrec := hcontra.1
  unfold stop_record at hrec
  rw [AnomalyRecord.mk.injEq] at hrec
  have hlon := hrec.2.2.2.1
  dsimp only at hlon
  norm_num at hlon

end TouristSafety
